import Mathlib

/-!
Shallow embedding of the analytic-workspace application in this repository
(src/streamlit.py, src/main.py, src/new.py): the source store with its
aggregation, the cascading temporal filter pipeline, the group-sum
aggregation step, and the sheet/tab workspace.

Modelling conventions:
- a pandas DataFrame is a list of (index label, row) pairs; rows are abstract;
- strings (filenames, raw date cells) are lists of characters or Lean strings;
- uuid4 generation is a counter handing out a fresh token per call, never
  repeating and independent of the uploaded filename;
- decoders (pd.read_csv / pd.read_excel) are parameters returning none on
  failure (an exception or the caught ImportError); numeric cells are exact;
- python dict insertion keeps insertion order and replaces an existing key in
  place; raising an exception is modelled by an Option-valued result.
-/

/-- A pandas DataFrame over row type ρ: a list of (index label, row) pairs.
The label models the frame index; ignore_index regenerates it. -/
abbrev PTable (ρ : Type) : Type := List (Int × ρ)

/-- The row values of a frame in order, without the index. -/
def PTable.rows {ρ : Type} (t : PTable ρ) : List ρ := t.map Prod.snd

/-- A fresh contiguous index 0,1,2,... laid over the given rows, as
pd.concat(..., ignore_index=True) produces it. -/
def reindex {ρ : Type} (rows : List ρ) : PTable ρ :=
  ((List.range rows.length).map Int.ofNat).zip rows

/-- pd.concat(dfs, ignore_index=True): row-wise concatenation of the frames in
order, with a regenerated contiguous index. -/
def concatIgnoreIndex {ρ : Type} (dfs : List (PTable ρ)) : PTable ρ :=
  reindex (dfs.map PTable.rows).flatten

/-- Filenames and raw text cells, as character lists. -/
abbrev Filename : Type := List Char

/-- str.lower() of a filename. -/
def strLower (s : Filename) : Filename := s.map Char.toLower

/-- str.endswith(pat). -/
def strEndsWith (s pat : Filename) : Bool := pat.isSuffixOf s

/-- One stored source of the streamlit DataManager.data_map
(src/streamlit.py:128-130): generated id mapped to the decoded frame and the
original filename, in insertion order. -/
structure SourceEntry (ρ : Type) where
  id : Nat
  table : PTable ρ
  origin : Filename
deriving DecidableEq

/-- Python dict assignment d[k] = v on the id-keyed store: replaces in place
when the key exists, otherwise appends. -/
def dictInsert {ρ : Type} (k : Nat) (df : PTable ρ) (origin : Filename)
    (m : List (SourceEntry ρ)) : List (SourceEntry ρ) :=
  if m.any (fun e => e.id == k) then
    m.map (fun e => if e.id == k then ⟨k, df, origin⟩ else e)
  else m ++ [⟨k, df, origin⟩]

/-- DataManager.aggregate_data (src/streamlit.py:152-161): an empty store
gives the empty frame; a single stored frame is returned as is; otherwise all
stored frames are concatenated in insertion order under a regenerated index. -/
def aggregateData {ρ : Type} : List (SourceEntry ρ) → PTable ρ
  | [] => []
  | [e] => e.table
  | es => concatIgnoreIndex (es.map SourceEntry.table)

/-- DataManager.aggregate_data of the dash variant (src/main.py:69-72), whose
store is keyed by filename. More than one frame concatenates; otherwise the
result of next(iter(...)), which raises StopIteration (none) on an empty
store. -/
def mainAggregateData {ρ : Type} (m : List (Filename × PTable ρ)) :
    Option (PTable ρ) :=
  if 1 < m.length then some (concatIgnoreIndex (m.map Prod.snd))
  else m.head?.map Prod.snd

/-- DataManager.load_data (src/streamlit.py:132-150). A fresh uuid is drawn
first; the extension of the lowercased filename selects the decoder; an
unsupported extension warns and returns the empty id (none here) leaving the
store untouched; a decoder failure (the caught ImportError, or a raised read
error) also stores nothing. -/
def loadData {ρ β : Type} (decodeXlsx decodeCsv : β → Option (PTable ρ))
    (uuid : Nat) (name : Filename) (content : β)
    (dataMap : List (SourceEntry ρ)) : List (SourceEntry ρ) × Option Nat :=
  let filename := strLower name
  if strEndsWith filename ".xlsx".data then
    match decodeXlsx content with
    | some df => (dictInsert uuid df name dataMap, some uuid)
    | none => (dataMap, none)
  else if strEndsWith filename ".csv".data then
    match decodeCsv content with
    | some df => (dictInsert uuid df name dataMap, some uuid)
    | none => (dataMap, none)
  else (dataMap, none)

/-- The uploader session state: the store plus the uuid4 supply, modelled as a
counter producing one fresh token per load_data call. -/
structure UploadState (ρ : Type) where
  dataMap : List (SourceEntry ρ)
  nextUuid : Nat
deriving DecidableEq

/-- One load_data call against the session state: the uuid counter advances on
every call, successful or not (the token is drawn before the dispatch). -/
def loadDataS {ρ β : Type} (dX dC : β → Option (PTable ρ))
    (st : UploadState ρ) (name : Filename) (content : β) :
    UploadState ρ × Option Nat :=
  let r := loadData dX dC st.nextUuid name content st.dataMap
  (⟨r.1, st.nextUuid + 1⟩, r.2)

/-- A sequence of upload events, each routed through load_data
(src/streamlit.py:189-193). -/
def ingestAll {ρ β : Type} (dX dC : β → Option (PTable ρ))
    (files : List (Filename × β)) (st : UploadState ρ) : UploadState ρ :=
  files.foldl (fun s f => (loadDataS dX dC s f.1 f.2).1) st

/-- Python dict assignment on the filename-keyed store of the dash variant
(src/main.py:51 and 58): the decoded frame is stored under the FILENAME. -/
def mainStoreUnder {ρ : Type} (name : Filename) (df : PTable ρ)
    (m : List (Filename × PTable ρ)) : List (Filename × PTable ρ) :=
  if m.any (fun e => e.1 == name) then
    m.map (fun e => if e.1 == name then (name, df) else e)
  else m ++ [(name, df)]

/-- One file of the dash upload handler (src/main.py:102-106) combined with
DataManager.load_data/load_csv/load_xlsx (src/main.py:47-67): a filename
ending in .xlsx selects the xlsx decoder and EVERY other filename selects the
csv decoder; the decoded frame is stored under the filename. A decoder
failure raises out of the handler (store unchanged). -/
def mainHandleUploadOne {ρ β : Type} (dX dC : β → Option (PTable ρ))
    (name : Filename) (content : β) (m : List (Filename × PTable ρ)) :
    List (Filename × PTable ρ) :=
  if strEndsWith name ".xlsx".data then
    match dX content with
    | some df => mainStoreUnder name df m
    | none => m
  else
    match dC content with
    | some df => mainStoreUnder name df m
    | none => m

/-- A calendar date as pd.to_datetime yields it, reduced to the fields the
filter pipeline reads: the year and the month (1-12). -/
structure SimpleDate where
  year : Int
  month : Nat
deriving DecidableEq

/-- pandas Series.dt.quarter, derived from the month. -/
def SimpleDate.quarter (d : SimpleDate) : Nat := (d.month + 2) / 3

/-- An input row of the filter widget: the raw date cell (a string) plus the
remaining columns abstracted as a payload. -/
structure Row (α : Type) where
  date : String
  payload : α
deriving DecidableEq

/-- A working row after FilterWidget.render lines 34-37 of src/streamlit.py:
the date column coerced (pd.to_datetime with errors="coerce": an unparseable
cell becomes missing) and the derived year/quarter/month columns, missing
wherever the date is missing. -/
structure DRow (α : Type) where
  date : Option SimpleDate
  year : Option Int
  quarter : Option Nat
  month : Option Nat
  payload : α
deriving DecidableEq

/-- Lines 34-37 of src/streamlit.py on one row: coerce the date cell with the
given parser and derive the three calendar columns. -/
def deriveRow {α : Type} (parse : String → Option SimpleDate) (r : Row α) :
    DRow α :=
  let d := parse r.date
  ⟨d, d.map SimpleDate.year, d.map SimpleDate.quarter,
    d.map SimpleDate.month, r.payload⟩

/-- pandas Series.isin on a possibly-missing cell: a missing value is never a
member of the selection. -/
def isinOpt {γ : Type} [BEq γ] : Option γ → List γ → Bool
  | none, _ => false
  | some v, sel => sel.contains v

/-- The year step (src/streamlit.py:47-49): an empty selection passes the
frame through unchanged. -/
def yearStage {α : Type} (sel : List Int) (t : List (DRow α)) : List (DRow α) :=
  if sel.isEmpty then t else t.filter (fun r => isinOpt r.year sel)

/-- The quarter step (src/streamlit.py:58-59). -/
def quarterStage {α : Type} (sel : List Nat) (t : List (DRow α)) :
    List (DRow α) :=
  if sel.isEmpty then t else t.filter (fun r => isinOpt r.quarter sel)

/-- The month step (src/streamlit.py:70-71). -/
def monthStage {α : Type} (sel : List Nat) (t : List (DRow α)) :
    List (DRow α) :=
  if sel.isEmpty then t else t.filter (fun r => isinOpt r.month sel)

/-- Insert into an already sorted list, keeping it sorted (ascending). -/
def insertNat (a : Nat) : List Nat → List Nat
  | [] => [a]
  | b :: l => if a ≤ b then a :: b :: l else b :: insertNat a l

/-- Insert into an already sorted list of years, keeping it sorted. -/
def insertInt (a : Int) : List Int → List Int
  | [] => [a]
  | b :: l => if a ≤ b then a :: b :: l else b :: insertInt a l

/-- sorted(series.dropna().unique()): the distinct non-missing values in
ascending order (insertion sort over the deduplicated values). -/
def sortedUnique (l : List Nat) : List Nat :=
  l.dedup.foldr insertNat []

/-- sorted(series.dropna().unique()) for the year column. -/
def sortedUniqueInt (l : List Int) : List Int :=
  l.dedup.foldr insertInt []

/-- What one FilterWidget.render pass offers and returns: the three option
lists shown by the multiselects and the filtered frame. -/
structure FilterOutput (α : Type) where
  yearOptions : List Int
  quarterOptions : List Nat
  monthOptions : List Nat
  table : List (DRow α)
deriving DecidableEq

/-- FilterWidget.render (src/streamlit.py:24-74) given the selections made in
its three multiselects: derive the calendar columns, offer the years of the
full frame, apply the year step, offer the fixed quarter options 1-4, apply
the quarter step, offer the months present in the frame narrowed so far,
apply the month step. -/
def renderFilterWidget {α : Type} (parse : String → Option SimpleDate)
    (ys : List Int) (qs ms : List Nat) (t : List (Row α)) : FilterOutput α :=
  let d := t.map (deriveRow parse)
  let yOpts := sortedUniqueInt (d.filterMap DRow.year)
  let t1 := yearStage ys d
  let t2 := quarterStage qs t1
  let mOpts := sortedUnique (t2.filterMap DRow.month)
  let t3 := monthStage ms t2
  ⟨yOpts, [1, 2, 3, 4], mOpts, t3⟩

/-- A heap cell holding one live DataFrame: either a raw uploaded frame or one
whose date column was coerced in place with the calendar columns added. -/
inductive TableVal (α : Type) : Type
  | raw (t : List (Row α)) : TableVal α
  | derived (t : List (DRow α)) : TableVal α
deriving DecidableEq

/-- The heap of live DataFrames; a reference is a position into it. -/
abbrev Store (α : Type) : Type := List (TableVal α)

/-- FilterWidget.__init__ (src/streamlit.py:16-22): self.df = df.copy()
allocates a fresh cell holding a copy of the argument frame, and the widget
keeps a reference to that fresh cell, never to the cell of the caller. -/
def mkFilterWidget {α : Type} (σ : Store α) (r : Nat) : Store α × Nat :=
  (σ ++ [σ.getD r (TableVal.raw [])], σ.length)

/-- FilterWidget.render in the heap model: lines 34-37 of src/streamlit.py
assign the coerced date column and the derived columns back into self.df (the
own cell of the widget); the returned frame is the staged filter applied to that
derivation. On a cell already derived, re-coercion is the identity. -/
def renderFilterWidgetMut {α : Type} (parse : String → Option SimpleDate)
    (ys : List Int) (qs ms : List Nat) (σ : Store α) (w : Nat) :
    Store α × List (DRow α) :=
  match σ.getD w (TableVal.raw []) with
  | TableVal.raw rows =>
    let d := rows.map (deriveRow parse)
    (σ.set w (TableVal.derived d),
      monthStage ms (quarterStage qs (yearStage ys d)))
  | TableVal.derived d =>
    (σ.set w (TableVal.derived d),
      monthStage ms (quarterStage qs (yearStage ys d)))

/-- A filtered row as the aggregation step sees it: the value of the one
chosen grouping column (missing allowed: dropna=False keeps missing values as
their own group) and the numeric nominal measure, modelled exactly. -/
structure GRow (κ : Type) where
  key : Option κ
  nominal : Int
deriving DecidableEq

/-- df_filtered.groupby([col], dropna=False, as_index=False)["nominal"].sum()
(src/streamlit.py:278) for a single grouping column: one output row per
distinct key value present in the input, carrying the sum of nominal over the
rows of that group. -/
def groupSum {κ : Type} [DecidableEq κ] (t : List (GRow κ)) :
    List (Option κ × Int) :=
  (t.map GRow.key).dedup.map
    (fun k => (k, ((t.filter (fun r => decide (r.key = k))).map GRow.nominal).sum))

/-- The total of the measure column over an input table. -/
def sumNominal {κ : Type} (t : List (GRow κ)) : Int :=
  (t.map GRow.nominal).sum

/-- The total of the measure column over a grouped result. -/
def sumGrouped {κ : Type} (g : List (Option κ × Int)) : Int :=
  (g.map Prod.snd).sum

/-- One tab instance: its kind name and its generated identity token
(Tab.__init__, src/streamlit.py:85-87). -/
structure TabInst where
  kind : String
  tabId : Nat
deriving DecidableEq

/-- A sheet is an ordered list of tab instances (src/streamlit.py:292-296). -/
abbrev Sheet : Type := List TabInst

/-- TabFactory.create_tab (src/streamlit.py:109-112): an unregistered kind
raises ValueError (none); a registered kind constructs a fresh instance of
that kind with a newly generated identity. -/
def createTab (kinds : List String) (kind : String) (freshId : Nat) :
    Option TabInst :=
  if kinds.contains kind then some ⟨kind, freshId⟩ else none

/-- SheetManager.add_tab_to_sheet (src/streamlit.py:302-304): guarded by
0 <= index < len(sheets); outside that range nothing happens and no error is
raised. -/
def addTabToSheet (sheets : List Sheet) (i : Int) (tab : TabInst) :
    List Sheet :=
  if 0 ≤ i ∧ i < sheets.length then
    sheets.set i.toNat (sheets.getD i.toNat [] ++ [tab])
  else sheets

/-- SheetManager.add_tab_to_sheet of the dash variant (src/main.py:165-168):
raises IndexError (none) when index >= len(sheets); otherwise python list
indexing applies, so a negative index wraps from the end and an index below
-len(sheets) raises IndexError at the subscription. -/
def mainAddTabToSheet (sheets : List Sheet) (i : Int) (tab : TabInst) :
    Option (List Sheet) :=
  if (sheets.length : Int) ≤ i then none
  else if 0 ≤ i then
    some (sheets.set i.toNat (sheets.getD i.toNat [] ++ [tab]))
  else if 0 ≤ (sheets.length : Int) + i then
    some (sheets.set ((sheets.length : Int) + i).toNat
      (sheets.getD ((sheets.length : Int) + i).toNat [] ++ [tab]))
  else none

/-- SheetManager.delete_sheet (src/streamlit.py:298-300): only a valid index
removes its sheet; any other index is a silent no-op. -/
def deleteSheet (sheets : List Sheet) (i : Int) : List Sheet :=
  if 0 ≤ i ∧ i < sheets.length then sheets.eraseIdx i.toNat else sheets

/-- The workspace state the delete button manipulates: the sheet list of the
SheetManager and the session active_sheet_idx. -/
structure WorkspaceState where
  sheets : List Sheet
  activeIdx : Int
deriving DecidableEq

/-- The delete-button handler (src/streamlit.py:383-388): delete_sheet(i),
then clamp the active index to count-1 whenever it is >= the new count. -/
def deleteSheetApp (st : WorkspaceState) (i : Int) : WorkspaceState :=
  let sheets2 := deleteSheet st.sheets i
  let active2 :=
    if (sheets2.length : Int) ≤ st.activeIdx then (sheets2.length : Int) - 1
    else st.activeIdx
  ⟨sheets2, active2⟩

/-- A tiny concrete date parser used by the concrete instances below; every
other string is unparseable and coerces to missing. -/
def dateParse : String → Option SimpleDate := fun s =>
  if s = "2023-01-15" then some ⟨2023, 1⟩
  else if s = "2024-06-02" then some ⟨2024, 6⟩
  else none

/-!
Theorems. Each claim of the specification is settled by one theorem below;
helper lemmas are shared.
-/

theorem reindex_fst {ρ : Type} (rows : List ρ) :
    (reindex rows).map Prod.fst = (List.range rows.length).map Int.ofNat := by
  unfold reindex
  exact List.map_fst_zip _ _ (by simp)

theorem yearStage_nil {α : Type} (t : List (DRow α)) : yearStage [] t = t := rfl

theorem quarterStage_nil {α : Type} (t : List (DRow α)) :
    quarterStage [] t = t := rfl

theorem monthStage_nil {α : Type} (t : List (DRow α)) : monthStage [] t = t :=
  rfl

theorem yearStage_of_ne {α : Type} (sel : List Int) (t : List (DRow α))
    (h : sel ≠ []) :
    yearStage sel t = t.filter (fun r => isinOpt r.year sel) := by
  unfold yearStage
  rw [if_neg]
  simpa using h

/-- Claim C1 (amended): the streamlit aggregate (src/streamlit.py:152-161)
returns the empty table on an empty store, the single stored table unchanged
when exactly one source exists, and the insertion-order row-wise concatenation
under a regenerated contiguous index when two or more exist; the dash variant
(src/main.py:69-72) agrees on nonempty stores but raises on an empty one. -/
theorem c1_aggregate_characterization (ρ : Type) :
    (aggregateData ([] : List (SourceEntry ρ)) = []) ∧
    (∀ e : SourceEntry ρ, aggregateData [e] = e.table) ∧
    (∀ es : List (SourceEntry ρ), 2 ≤ es.length →
      aggregateData es = concatIgnoreIndex (es.map SourceEntry.table) ∧
      (aggregateData es).map Prod.fst =
        (List.range ((es.map (fun e => PTable.rows e.table)).flatten.length)).map
          Int.ofNat) ∧
    (mainAggregateData ([] : List (Filename × PTable ρ)) = none) ∧
    (∀ nm (t : PTable ρ), mainAggregateData [(nm, t)] = some t) ∧
    (∀ m : List (Filename × PTable ρ), 2 ≤ m.length →
      mainAggregateData m = some (concatIgnoreIndex (m.map Prod.snd))) := by
  refine ⟨rfl, fun e => rfl, ?_, rfl, fun nm t => rfl, ?_⟩
  · intro es h
    rcases es with _ | ⟨a, _ | ⟨b, l⟩⟩
    · simp at h
    · simp at h
    · refine ⟨rfl, ?_⟩
      rw [show aggregateData (a :: b :: l) =
          concatIgnoreIndex ((a :: b :: l).map SourceEntry.table) from rfl,
        concatIgnoreIndex, reindex_fst, List.map_map]
      rfl
  · intro m h
    rcases m with _ | ⟨a, _ | ⟨b, l⟩⟩
    · simp at h
    · simp at h
    · show (if 1 < ((a :: b :: l).length) then
          some (concatIgnoreIndex ((a :: b :: l).map Prod.snd))
        else ((a :: b :: l).head?).map Prod.snd) = _
      rw [if_pos (by simp only [List.length_cons]; omega)]

/-- Witness for C1: a concrete two-source store aggregates to the reindexed
concatenation, and the dash variant on the empty store yields no table. -/
theorem c1_aggregate_witness :
    aggregateData [⟨0, [(5, 10)], "a.csv".data⟩, ⟨1, [(7, 20)], "b.csv".data⟩] =
      ([(0, 10), (1, 20)] : PTable Nat) ∧
    mainAggregateData ([] : List (Filename × PTable Nat)) = none := by
  have h := c1_aggregate_characterization Nat
  refine ⟨?_, h.2.2.2.1⟩
  have h2 := h.2.2.1
    [⟨0, [(5, 10)], "a.csv".data⟩, ⟨1, [(7, 20)], "b.csv".data⟩] (by decide)
  rw [h2.1]
  decide

/-- Counterexample to C1 as stated: on an empty store the dash variant of the
aggregate operation (src/main.py:69-72) raises StopIteration (modelled none)
instead of returning the empty table. -/
theorem c1_counterexample :
    mainAggregateData ([] : List (Filename × PTable Nat)) = none ∧
    (none : Option (PTable Nat)) ≠ some [] := by decide

/-- Claim C2: with a nonempty year selection and empty quarter and month
selections, FilterWidget.render returns exactly the rows whose derived year
lies in the selection; and an empty selection at any stage gives the same
result as the pipeline that omits that stage entirely. -/
theorem c2_year_filter_and_empty_passthrough {α : Type}
    (parse : String → Option SimpleDate) (t : List (Row α))
    (ys : List Int) (qs ms : List Nat) :
    (ys ≠ [] →
      (renderFilterWidget parse ys [] [] t).table =
        (t.map (deriveRow parse)).filter (fun r => isinOpt r.year ys)) ∧
    ((renderFilterWidget parse ys [] ms t).table =
      monthStage ms (yearStage ys (t.map (deriveRow parse)))) ∧
    ((renderFilterWidget parse [] qs ms t).table =
      monthStage ms (quarterStage qs (t.map (deriveRow parse)))) ∧
    ((renderFilterWidget parse ys qs [] t).table =
      quarterStage qs (yearStage ys (t.map (deriveRow parse)))) := by
  refine ⟨?_, ?_, ?_, ?_⟩
  · intro hy
    show monthStage [] (quarterStage []
      (yearStage ys (t.map (deriveRow parse)))) = _
    rw [monthStage_nil, quarterStage_nil, yearStage_of_ne ys _ hy]
  · show monthStage ms (quarterStage []
      (yearStage ys (t.map (deriveRow parse)))) = _
    rw [quarterStage_nil]
  · show monthStage ms (quarterStage qs
      (yearStage [] (t.map (deriveRow parse)))) = _
    rw [yearStage_nil]
  · show monthStage [] (quarterStage qs
      (yearStage ys (t.map (deriveRow parse)))) = _
    rw [monthStage_nil]

/-- Witness for C2 at a concrete table: selecting year 2023 with no quarter
or month restriction keeps exactly the 2023 row. -/
theorem c2_witness :
    (renderFilterWidget dateParse [2023] [] []
        [⟨"2023-01-15", 0⟩, ⟨"2024-06-02", 1⟩]).table =
      [deriveRow dateParse ⟨"2023-01-15", 0⟩] := by
  have h := (c2_year_filter_and_empty_passthrough dateParse
    [⟨"2023-01-15", 0⟩, ⟨"2024-06-02", 1⟩] [2023] [] []).1 (by decide)
  rw [h]
  decide

theorem sum_map_zero {γ : Type} (l : List γ) :
    (l.map (fun _ => (0 : Int))).sum = 0 := by
  induction l with
  | nil => rfl
  | cons a l ih => simp [ih]

theorem sum_map_add {γ : Type} (l : List γ) (f g : γ → Int) :
    (l.map (fun x => f x + g x)).sum = (l.map f).sum + (l.map g).sum := by
  induction l with
  | nil => rfl
  | cons a l ih =>
    simp only [List.map_cons, List.sum_cons, ih]
    ring

theorem sum_ite_single {γ : Type} [DecidableEq γ] (l : List γ) (a : γ)
    (c : Int) (h : a ∈ l) (hn : l.Nodup) :
    (l.map (fun k => if a = k then c else 0)).sum = c := by
  induction l with
  | nil => simp at h
  | cons b l ih =>
    rcases List.mem_cons.mp h with rfl | hmem
    · have hne : ∀ k ∈ l, a ≠ k := fun k hk he =>
        (List.nodup_cons.mp hn).1 (he ▸ hk)
      have hz : l.map (fun k => if a = k then c else 0) = l.map (fun _ => 0) :=
        List.map_congr_left fun k hk => if_neg (hne k hk)
      rw [List.map_cons, List.sum_cons, hz, sum_map_zero, if_pos rfl, add_zero]
    · have hb : a ≠ b := fun he => (List.nodup_cons.mp hn).1 (he ▸ hmem)
      simp only [List.map_cons, List.sum_cons, if_neg hb]
      rw [ih hmem (List.nodup_cons.mp hn).2]
      ring

theorem fiber_cons {κ : Type} [DecidableEq κ] (r : GRow κ) (t : List (GRow κ))
    (k : Option κ) :
    (((r :: t).filter (fun x => decide (x.key = k))).map GRow.nominal).sum =
      (if r.key = k then r.nominal else 0) +
        ((t.filter (fun x => decide (x.key = k))).map GRow.nominal).sum := by
  by_cases h : r.key = k
  · simp [List.filter_cons, h]
  · simp [List.filter_cons, h]

theorem fiberSum_complete {κ : Type} [DecidableEq κ] (t : List (GRow κ))
    (ks : List (Option κ)) (hn : ks.Nodup) (hc : ∀ r ∈ t, r.key ∈ ks) :
    (ks.map (fun k =>
        ((t.filter (fun x => decide (x.key = k))).map GRow.nominal).sum)).sum =
      sumNominal t := by
  induction t with
  | nil =>
    simp only [List.filter_nil, List.map_nil, List.sum_nil]
    rw [sum_map_zero]
    rfl
  | cons r t ih =>
    have hstep : (fun k =>
        (((r :: t).filter (fun x => decide (x.key = k))).map GRow.nominal).sum)
        = fun k => (if r.key = k then r.nominal else 0) +
            ((t.filter (fun x => decide (x.key = k))).map GRow.nominal).sum := by
      funext k
      exact fiber_cons r t k
    rw [hstep, sum_map_add, sum_ite_single ks r.key r.nominal
      (hc r (by simp)) hn, ih (fun x hx => hc x (by simp [hx]))]
    show r.nominal + sumNominal t = sumNominal (r :: t)
    simp [sumNominal]

/-- Claim C3: grouping by one chosen column (missing keys kept as their own
group) and summing the nominal measure conserves the total: the sum over the
grouped output equals the sum over the input table. -/
theorem c3_group_sum_conservation {κ : Type} [DecidableEq κ]
    (t : List (GRow κ)) : sumGrouped (groupSum t) = sumNominal t := by
  unfold sumGrouped groupSum
  rw [List.map_map]
  exact fiberSum_complete t (t.map GRow.key).dedup (List.nodup_dedup _)
    (fun r hr => List.mem_dedup.mpr (List.mem_map_of_mem _ hr))

/-- Witness for C3 at a concrete table with a repeated key and a missing
key. -/
theorem c3_group_sum_witness :
    sumGrouped (groupSum [⟨some 1, 5⟩, ⟨none, 3⟩, ⟨some 1, 2⟩]) =
      sumNominal ([⟨some 1, 5⟩, ⟨none, 3⟩, ⟨some 1, 2⟩] : List (GRow Nat)) :=
  c3_group_sum_conservation _

theorem dictInsert_fresh {ρ : Type} (k : Nat) (df : PTable ρ) (o : Filename)
    (m : List (SourceEntry ρ)) (h : ∀ e ∈ m, e.id ≠ k) :
    dictInsert k df o m = m ++ [⟨k, df, o⟩] := by
  have h2 : m.any (fun e => e.id == k) = false := by
    rw [List.any_eq_false]
    intro e he
    simpa using h e he
  unfold dictInsert
  rw [h2]
  simp

theorem loadData_store_cases {ρ β : Type} (dX dC : β → Option (PTable ρ))
    (u : Nat) (name : Filename) (c : β) (m : List (SourceEntry ρ))
    (hfresh : ∀ e ∈ m, e.id ≠ u) :
    (loadData dX dC u name c m).1 = m ∨
    ∃ df, (loadData dX dC u name c m).1 = m ++ [⟨u, df, name⟩] := by
  unfold loadData
  by_cases hx : strEndsWith (strLower name) ".xlsx".data
  · simp only [hx, if_true]
    cases hdf : dX c with
    | none => exact Or.inl rfl
    | some df => exact Or.inr ⟨df, by simp [dictInsert_fresh u df name m hfresh]⟩
  · simp only [hx, Bool.false_eq_true, if_false]
    by_cases hc : strEndsWith (strLower name) ".csv".data
    · simp only [hc, if_true]
      cases hdf : dC c with
      | none => exact Or.inl rfl
      | some df =>
        exact Or.inr ⟨df, by simp [dictInsert_fresh u df name m hfresh]⟩
    · simp only [hc, Bool.false_eq_true, if_false]
      exact Or.inl trivial

theorem loadData_fresh_step {ρ β : Type} (dX dC : β → Option (PTable ρ))
    (u : Nat) (name : Filename) (c : β) (m : List (SourceEntry ρ))
    (hn : (m.map SourceEntry.id).Nodup) (hlt : ∀ e ∈ m, e.id < u) :
    ((loadData dX dC u name c m).1.map SourceEntry.id).Nodup ∧
    (∀ e ∈ m, e ∈ (loadData dX dC u name c m).1) ∧
    (∀ e ∈ (loadData dX dC u name c m).1, e.id < u + 1) := by
  have hfresh : ∀ e ∈ m, e.id ≠ u := fun e he => Nat.ne_of_lt (hlt e he)
  rcases loadData_store_cases dX dC u name c m hfresh with heq | ⟨df, heq⟩
  · rw [heq]
    exact ⟨hn, fun e he => he, fun e he => Nat.lt_succ_of_lt (hlt e he)⟩
  · rw [heq]
    refine ⟨?_, fun e he => List.mem_append_left _ he, ?_⟩
    · rw [List.map_append]
      rw [List.nodup_append]
      refine ⟨hn, List.nodup_singleton _, ?_⟩
      intro x hx hy
      simp only [List.map_cons, List.map_nil, List.mem_singleton] at hy
      rcases List.mem_map.mp hx with ⟨e, he, rfl⟩
      exact hfresh e he hy
    · intro e he
      rcases List.mem_append.mp he with he1 | he2
      · exact Nat.lt_succ_of_lt (hlt e he1)
      · simp only [List.mem_singleton] at he2
        rw [he2]
        exact Nat.lt_succ_self u

/-- Claim C5 (amended): in the streamlit variant (src/streamlit.py:132-150)
every successful ingest stores the table under the freshly generated token —
never under the filename — so any sequence of uploads, even with repeated
filenames, keeps every earlier stored source and all stored ids distinct; in
the dash variant (src/main.py:47-59) the store is keyed by filename, so a
repeated filename overwrites the earlier source. -/
theorem c5_fresh_ids {ρ β : Type} (dX dC : β → Option (PTable ρ))
    (files : List (Filename × β)) (st : UploadState ρ)
    (hn : (st.dataMap.map SourceEntry.id).Nodup)
    (hlt : ∀ e ∈ st.dataMap, e.id < st.nextUuid) :
    (((ingestAll dX dC files st).dataMap.map SourceEntry.id).Nodup ∧
     (∀ e ∈ st.dataMap, e ∈ (ingestAll dX dC files st).dataMap) ∧
     (∀ e ∈ (ingestAll dX dC files st).dataMap,
        e.id < (ingestAll dX dC files st).nextUuid)) ∧
    (∀ (u : Nat) (nm : Filename) (c : β) (m : List (SourceEntry ρ)),
      (loadData dX dC u nm c m).2 = none ∨
      (loadData dX dC u nm c m).2 = some u) := by
  constructor
  · induction files generalizing st with
    | nil => exact ⟨hn, fun e he => he, hlt⟩
    | cons f fs ih =>
      have hstep := loadData_fresh_step dX dC st.nextUuid f.1 f.2 st.dataMap
        hn hlt
      have hrec := ih ⟨(loadData dX dC st.nextUuid f.1 f.2 st.dataMap).1,
        st.nextUuid + 1⟩ hstep.1 hstep.2.2
      refine ⟨hrec.1, ?_, hrec.2.2⟩
      intro e he
      exact hrec.2.1 e (hstep.2.1 e he)
  · intro u nm c m
    unfold loadData
    by_cases hx : strEndsWith (strLower nm) ".xlsx".data
    · simp only [hx, if_true]
      cases dX c with
      | none => exact Or.inl rfl
      | some df => exact Or.inr rfl
    · simp only [hx, Bool.false_eq_true, if_false]
      by_cases hc : strEndsWith (strLower nm) ".csv".data
      · simp only [hc, if_true]
        cases dC c with
        | none => exact Or.inl rfl
        | some df => exact Or.inr rfl
      · simp only [hc, Bool.false_eq_true, if_false]
        exact Or.inl trivial

/-- Witness for C5: two uploads of files both named a.csv, stored under the
distinct generated ids 0 and 1, nothing overwritten. -/
theorem c5_witness :
    (((ingestAll (fun _ : Nat => none) (fun n => some [((0 : Int), n)])
        [("a.csv".data, 1), ("a.csv".data, 2)]
        ⟨[], 0⟩).dataMap.map SourceEntry.id).Nodup : Prop) := by
  exact (c5_fresh_ids (fun _ : Nat => none) (fun n => some [((0 : Int), n)])
    [("a.csv".data, 1), ("a.csv".data, 2)] ⟨[], 0⟩ (by simp) (by simp)).1.1

/-- Counterexample to C5 as stated: in the dash variant two uploads named
a.csv collide — the store ends with a single entry holding the second table,
the first is overwritten. -/
theorem c5_counterexample :
    mainHandleUploadOne (fun _ : Option Nat => none)
      (fun c => c.map (fun v => [((0 : Int), v)])) "a.csv".data (some 2)
      (mainHandleUploadOne (fun _ => none)
        (fun c => c.map (fun v => [((0 : Int), v)])) "a.csv".data (some 1) []) =
      [("a.csv".data, [((0 : Int), (2 : Nat))])] := by decide

/-- Claim C4 (amended): in the streamlit variant (src/streamlit.py:132-150) an
ingest whose filename extension is neither .csv nor .xlsx is rejected with no
parsing attempt (the result is the same literal rejection for every choice of
decoders) and the store is exactly unchanged; in the dash variant
(src/main.py:102-112) a filename not ending in .xlsx is instead routed to the
csv decoder. -/
theorem c4_unsupported_extension {ρ β : Type} (name : Filename)
    (h1 : strEndsWith (strLower name) ".xlsx".data = false)
    (h2 : strEndsWith (strLower name) ".csv".data = false)
    (h3 : strEndsWith name ".xlsx".data = false) :
    (∀ (dX dC : β → Option (PTable ρ)) (u : Nat) (c : β)
        (m : List (SourceEntry ρ)),
      loadData dX dC u name c m = (m, none)) ∧
    (∀ (dX dC : β → Option (PTable ρ)) (c : β)
        (m : List (Filename × PTable ρ)),
      mainHandleUploadOne dX dC name c m =
        match dC c with
        | some df => mainStoreUnder name df m
        | none => m) := by
  constructor
  · intro dX dC u c m
    unfold loadData
    simp [h1, h2]
  · intro dX dC c m
    unfold mainHandleUploadOne
    simp [h3]

/-- Witness for C4: uploading data.txt leaves the streamlit store untouched
with no id returned, for decoders that would happily decode it; the dash
handler stores it as csv. -/
theorem c4_witness :
    loadData (fun _ : Unit => some [((0 : Int), (1 : Nat))])
      (fun _ => some [((0 : Int), (2 : Nat))]) 7 "data.txt".data () [] =
      (([] : List (SourceEntry Nat)), none) ∧
    mainHandleUploadOne (fun _ : Unit => none)
      (fun _ => some [((0 : Int), (42 : Nat))]) "data.txt".data () [] =
      [("data.txt".data, [((0 : Int), (42 : Nat))])] := by
  have h := c4_unsupported_extension (ρ := Nat) (β := Unit) "data.txt".data
    (by decide) (by decide) (by decide)
  refine ⟨h.1 _ _ _ _ _, ?_⟩
  rw [h.2 (fun _ : Unit => none) (fun _ => some [((0 : Int), (42 : Nat))]) () []]
  decide

/-- Counterexample to C4 as stated: uploading notes.txt through the dash
upload handler (src/main.py:102-112) routes it to the csv decoder and stores
the decoded frame under the filename — the store changes and nothing is
rejected before the parsing attempt. -/
theorem c4_counterexample :
    mainHandleUploadOne (fun _ : Unit => none)
      (fun _ => some [((0 : Int), (7 : Nat))]) "notes.txt".data () [] =
      [("notes.txt".data, [((0 : Int), (7 : Nat))])] ∧
    [("notes.txt".data, [((0 : Int), (7 : Nat))])] ≠
      ([] : List (Filename × PTable Nat)) := by decide

theorem mem_insertNat (a m : Nat) (l : List Nat) :
    m ∈ insertNat a l ↔ m = a ∨ m ∈ l := by
  induction l with
  | nil => simp [insertNat]
  | cons b l ih =>
    unfold insertNat
    by_cases hab : a ≤ b
    · rw [if_pos hab]
      simp
    · rw [if_neg hab]
      simp only [List.mem_cons, ih]
      tauto

theorem mem_foldr_insertNat (l : List Nat) (m : Nat) :
    m ∈ l.foldr insertNat [] ↔ m ∈ l := by
  induction l with
  | nil => simp
  | cons b l ih =>
    simp only [List.foldr_cons, mem_insertNat, ih, List.mem_cons]

theorem mem_sortedUnique (l : List Nat) (m : Nat) :
    m ∈ sortedUnique l ↔ m ∈ l := by
  unfold sortedUnique
  rw [mem_foldr_insertNat, List.mem_dedup]

/-- Claim C6 (amended): the three selection stages apply in the fixed order
year, quarter, month, each narrowing the working table before the next; the
month options offered are exactly the months present in the table remaining
after the year and quarter selections; but the quarter options are the fixed
list [1,2,3,4] (src/streamlit.py:55), not narrowed by the year selection. -/
theorem c6_cascade {α : Type} (parse : String → Option SimpleDate)
    (ys : List Int) (qs ms : List Nat) (t : List (Row α)) :
    ((renderFilterWidget parse ys qs ms t).table =
      monthStage ms (quarterStage qs
        (yearStage ys (t.map (deriveRow parse))))) ∧
    ((renderFilterWidget parse ys qs ms t).monthOptions =
      sortedUnique ((quarterStage qs (yearStage ys
        (t.map (deriveRow parse)))).filterMap DRow.month)) ∧
    (∀ m : Nat, m ∈ (renderFilterWidget parse ys qs ms t).monthOptions ↔
      ∃ r ∈ quarterStage qs (yearStage ys (t.map (deriveRow parse))),
        r.month = some m) ∧
    ((renderFilterWidget parse ys qs ms t).quarterOptions = [1, 2, 3, 4]) := by
  refine ⟨rfl, rfl, ?_, rfl⟩
  intro m
  show m ∈ sortedUnique ((quarterStage qs (yearStage ys
    (t.map (deriveRow parse)))).filterMap DRow.month) ↔ _
  rw [mem_sortedUnique]
  simp [List.mem_filterMap]

/-- Counterexample to C6 as stated: with the single date 2023-01-15 and year
selection {2023}, the quarter options offered are still the fixed list 1-4,
not the quarters [1] present in the table remaining after the year
selection. -/
theorem c6_counterexample :
    (renderFilterWidget dateParse [2023] [] []
        [⟨"2023-01-15", (0 : Nat)⟩]).quarterOptions ≠
      sortedUnique ((yearStage [2023]
        ([⟨"2023-01-15", (0 : Nat)⟩].map (deriveRow dateParse))).filterMap
        DRow.quarter) := by decide

/-- Claim C7 (amended): in the streamlit variant (src/streamlit.py:302-304)
an out-of-range sheet index makes add_tab a silent no-op — the workspace is
returned unchanged and no error is raised; in the dash variant
(src/main.py:165-168) an index at or past the sheet count raises IndexError;
for an in-range index both variants append, and the registry creates an
instance of exactly the requested registered kind. -/
theorem c7_add_tab (sheets : List Sheet) (i : Int) (tab : TabInst) :
    (¬ (0 ≤ i ∧ i < sheets.length) → addTabToSheet sheets i tab = sheets) ∧
    ((sheets.length : Int) ≤ i → mainAddTabToSheet sheets i tab = none) ∧
    (0 ≤ i → i < sheets.length →
      addTabToSheet sheets i tab =
        sheets.set i.toNat (sheets.getD i.toNat [] ++ [tab]) ∧
      mainAddTabToSheet sheets i tab = some (addTabToSheet sheets i tab)) ∧
    (∀ (kinds : List String) (kind : String) (fid : Nat),
      kinds.contains kind = true →
        createTab kinds kind fid = some ⟨kind, fid⟩) := by
  refine ⟨?_, ?_, ?_, ?_⟩
  · intro h
    unfold addTabToSheet
    rw [if_neg h]
  · intro h
    unfold mainAddTabToSheet
    rw [if_pos h]
  · intro h1 h2
    have hin : 0 ≤ i ∧ i < (sheets.length : Int) := ⟨h1, h2⟩
    refine ⟨?_, ?_⟩
    · unfold addTabToSheet
      rw [if_pos hin]
    · unfold mainAddTabToSheet addTabToSheet
      rw [if_neg (by omega), if_pos h1, if_pos hin]
  · intro kinds kind fid h
    unfold createTab
    rw [if_pos h]

/-- Witness for C7: a one-sheet workspace appends at index 0, index 5 is a
silent no-op, the dash variant fails at index 1, and the registry creates the
requested kind. -/
theorem c7_witness :
    addTabToSheet [[]] 0 ⟨"PlotTab", 3⟩ = [[⟨"PlotTab", 3⟩]] ∧
    addTabToSheet [[]] 5 ⟨"PlotTab", 3⟩ = [[]] ∧
    mainAddTabToSheet [[]] 1 ⟨"PlotTab", 3⟩ = none ∧
    createTab ["UploadTab", "PlotTab"] "PlotTab" 3 = some ⟨"PlotTab", 3⟩ := by
  have h := c7_add_tab [[]] 0 ⟨"PlotTab", 3⟩
  have h5 := c7_add_tab [[]] 5 ⟨"PlotTab", 3⟩
  have h1 := c7_add_tab [[]] 1 ⟨"PlotTab", 3⟩
  refine ⟨?_, h5.1 (by decide), h1.2.1 (by decide),
    h.2.2.2 ["UploadTab", "PlotTab"] "PlotTab" 3 (by decide)⟩
  rw [(h.2.2.1 (by decide) (by decide)).1]
  decide

/-- Counterexample to C7 as stated: on the empty workspace, index 0 is out of
range, yet the streamlit add_tab silently returns the workspace unchanged
instead of failing hard with SheetNotFound (the dash variant does raise). -/
theorem c7_counterexample :
    addTabToSheet [] 0 ⟨"UploadTab", 0⟩ = [] ∧
    mainAddTabToSheet [] 0 ⟨"UploadTab", 0⟩ = none := by decide

/-- Claim C8: under the workspace invariant, deleting a sheet at an
out-of-range index changes neither the sheet list nor the active index; an
in-range delete removes exactly that sheet and the handler clamps the active
index to the new last position whenever it points past the new end, restoring
the invariant while any sheets remain. -/
theorem c8_delete_sheet (st : WorkspaceState) (i : Int)
    (hinv : 0 ≤ st.activeIdx ∧ st.activeIdx < st.sheets.length) :
    (¬ (0 ≤ i ∧ i < st.sheets.length) → deleteSheetApp st i = st) ∧
    (0 ≤ i → i < st.sheets.length →
      (deleteSheetApp st i).sheets = st.sheets.eraseIdx i.toNat ∧
      (deleteSheetApp st i).activeIdx =
        (if ((st.sheets.eraseIdx i.toNat).length : Int) ≤ st.activeIdx
          then ((st.sheets.eraseIdx i.toNat).length : Int) - 1
          else st.activeIdx) ∧
      (1 ≤ (st.sheets.eraseIdx i.toNat).length →
        0 ≤ (deleteSheetApp st i).activeIdx ∧
        (deleteSheetApp st i).activeIdx <
          (st.sheets.eraseIdx i.toNat).length)) := by
  obtain ⟨sheets, active⟩ := st
  simp only at hinv
  constructor
  · intro h
    simp only [deleteSheetApp, deleteSheet, if_neg h]
    rw [if_neg (by omega)]
  · intro h1 h2
    have hin : 0 ≤ i ∧ i < (sheets.length : Int) := ⟨h1, h2⟩
    have hel : (sheets.eraseIdx i.toNat).length = sheets.length - 1 :=
      List.length_eraseIdx_of_lt (by omega)
    simp only [deleteSheetApp, deleteSheet, if_pos hin]
    refine ⟨trivial, trivial, ?_⟩
    intro hlen
    by_cases hc : ((sheets.eraseIdx i.toNat).length : Int) ≤ active
    · rw [if_pos hc]
      constructor <;> omega
    · rw [if_neg hc]
      constructor <;> omega

/-- Witness for C8: a two-sheet workspace with active index 1; delete at 5 is
a no-op, delete at 1 removes the second sheet and clamps the active index to
0. -/
theorem c8_witness :
    deleteSheetApp ⟨[[], [⟨"PlotTab", 1⟩]], 1⟩ 5 =
      ⟨[[], [⟨"PlotTab", 1⟩]], 1⟩ ∧
    (deleteSheetApp ⟨[[], [⟨"PlotTab", 1⟩]], 1⟩ 1).sheets = [[]] ∧
    (deleteSheetApp ⟨[[], [⟨"PlotTab", 1⟩]], 1⟩ 1).activeIdx = 0 := by
  have h5 := c8_delete_sheet ⟨[[], [⟨"PlotTab", 1⟩]], 1⟩ 5 (by decide)
  have h1 := c8_delete_sheet ⟨[[], [⟨"PlotTab", 1⟩]], 1⟩ 1 (by decide)
  refine ⟨h5.1 (by decide), ?_, ?_⟩
  · rw [(h1.2 (by decide) (by decide)).1]
    decide
  · rw [(h1.2 (by decide) (by decide)).2.1]
    decide

theorem set_append_preserve {γ : Type} (σ : List γ) (c v : γ) (r : Nat)
    (h : r < σ.length) : ((σ ++ [c]).set σ.length v)[r]? = σ[r]? := by
  rw [List.getElem?_set_ne (by omega)]
  exact List.getElem?_append_left h

/-- Claim C9: the filter widget copies its frame at construction (df.copy())
and render mutates only the own cell of the widget, so the heap cell holding the
table of the caller — still the raw frame without any derived columns — is
unchanged after construction and after any render, whatever the
selections. -/
theorem c9_caller_table_preserved {α : Type}
    (parse : String → Option SimpleDate) (ys : List Int) (qs ms : List Nat)
    (σ : Store α) (r : Nat) (h : r < σ.length) :
    ((mkFilterWidget σ r).1)[r]? = σ[r]? ∧
    ((renderFilterWidgetMut parse ys qs ms (mkFilterWidget σ r).1
        (mkFilterWidget σ r).2).1)[r]? = σ[r]? := by
  have happ : (σ ++ [σ.getD r (TableVal.raw [])])[r]? = σ[r]? :=
    List.getElem?_append_left h
  refine ⟨happ, ?_⟩
  show (renderFilterWidgetMut parse ys qs ms
    (σ ++ [σ.getD r (TableVal.raw [])]) σ.length).1[r]? = σ[r]?
  unfold renderFilterWidgetMut
  cases hcell : (σ ++ [σ.getD r (TableVal.raw [])]).getD σ.length
      (TableVal.raw []) with
  | raw rows => exact set_append_preserve σ _ _ r h
  | derived d => exact set_append_preserve σ _ _ r h

/-- Witness for C9: a one-table heap; after building the widget on table 0
and rendering with a year selection, cell 0 still holds the raw table. -/
theorem c9_witness :
    ((renderFilterWidgetMut dateParse [2023] [] []
        (mkFilterWidget [TableVal.raw [⟨"2023-01-15", (0 : Nat)⟩]] 0).1
        (mkFilterWidget [TableVal.raw [⟨"2023-01-15", (0 : Nat)⟩]] 0).2).1)[0]? =
      some (TableVal.raw [⟨"2023-01-15", (0 : Nat)⟩]) := by
  rw [(c9_caller_table_preserved dateParse [2023] [] []
    [TableVal.raw [⟨"2023-01-15", (0 : Nat)⟩]] 0 (by decide)).2]
  decide

theorem yearStage_subset {α : Type} (sel : List Int) (x : List (DRow α))
    (r : DRow α) (h : r ∈ yearStage sel x) : r ∈ x := by
  unfold yearStage at h
  by_cases he : sel.isEmpty
  · rwa [if_pos he] at h
  · rw [if_neg he] at h
    exact List.mem_of_mem_filter h

theorem quarterStage_subset {α : Type} (sel : List Nat) (x : List (DRow α))
    (r : DRow α) (h : r ∈ quarterStage sel x) : r ∈ x := by
  unfold quarterStage at h
  by_cases he : sel.isEmpty
  · rwa [if_pos he] at h
  · rw [if_neg he] at h
    exact List.mem_of_mem_filter h

theorem monthStage_subset {α : Type} (sel : List Nat) (x : List (DRow α))
    (r : DRow α) (h : r ∈ monthStage sel x) : r ∈ x := by
  unfold monthStage at h
  by_cases he : sel.isEmpty
  · rwa [if_pos he] at h
  · rw [if_neg he] at h
    exact List.mem_of_mem_filter h

theorem yearStage_prop {α : Type} (sel : List Int) (x : List (DRow α))
    (r : DRow α) (hne : ¬ sel.isEmpty = true) (h : r ∈ yearStage sel x) :
    isinOpt r.year sel = true := by
  unfold yearStage at h
  rw [if_neg hne] at h
  exact (List.mem_filter.mp h).2

theorem quarterStage_prop {α : Type} (sel : List Nat) (x : List (DRow α))
    (r : DRow α) (hne : ¬ sel.isEmpty = true) (h : r ∈ quarterStage sel x) :
    isinOpt r.quarter sel = true := by
  unfold quarterStage at h
  rw [if_neg hne] at h
  exact (List.mem_filter.mp h).2

theorem monthStage_prop {α : Type} (sel : List Nat) (x : List (DRow α))
    (r : DRow α) (hne : ¬ sel.isEmpty = true) (h : r ∈ monthStage sel x) :
    isinOpt r.month sel = true := by
  unfold monthStage at h
  rw [if_neg hne] at h
  exact (List.mem_filter.mp h).2

theorem isinOpt_some {γ : Type} [BEq γ] (o : Option γ) (sel : List γ)
    (h : isinOpt o sel = true) : o.isSome = true := by
  cases o
  · simp [isinOpt] at h
  · rfl

theorem deriveRow_isSome {α : Type} (parse : String → Option SimpleDate)
    (t : List (Row α)) (r : DRow α) (h : r ∈ t.map (deriveRow parse)) :
    (r.year.isSome = true → r.date.isSome = true) ∧
    (r.quarter.isSome = true → r.date.isSome = true) ∧
    (r.month.isSome = true → r.date.isSome = true) := by
  rcases List.mem_map.mp h with ⟨r0, _, rfl⟩
  unfold deriveRow
  cases parse r0.date <;> simp

/-- Claim C10: with all three selections empty the filter output is the whole
derived table — rows with unparseable dates included, their derived fields
missing; but as soon as any selection is nonempty, every row of the output
carries a parsed date, so every unparseable-date row is excluded (a missing
derived value is never a member of a selection set). -/
theorem c10_unparseable_dates {α : Type} (parse : String → Option SimpleDate)
    (t : List (Row α)) (ys : List Int) (qs ms : List Nat) :
    ((renderFilterWidget parse [] [] [] t).table = t.map (deriveRow parse)) ∧
    (¬ (ys = [] ∧ qs = [] ∧ ms = []) →
      ∀ r ∈ (renderFilterWidget parse ys qs ms t).table,
        r.date.isSome = true) := by
  constructor
  · rfl
  · intro hne r hr
    have htab : r ∈ monthStage ms (quarterStage qs (yearStage ys
      (t.map (deriveRow parse)))) := hr
    have h2 : r ∈ quarterStage qs (yearStage ys (t.map (deriveRow parse))) :=
      monthStage_subset _ _ _ htab
    have h1 : r ∈ yearStage ys (t.map (deriveRow parse)) :=
      quarterStage_subset _ _ _ h2
    have h0 : r ∈ t.map (deriveRow parse) := yearStage_subset _ _ _ h1
    have hprov := deriveRow_isSome parse t r h0
    by_cases hm : ms = []
    · by_cases hq : qs = []
      · have hy : ys ≠ [] := by tauto
        have hf := yearStage_prop ys _ r (by simpa using hy) h1
        exact hprov.1 (isinOpt_some _ _ hf)
      · have hf := quarterStage_prop qs _ r (by simpa using hq) h2
        exact hprov.2.1 (isinOpt_some _ _ hf)
    · have hf := monthStage_prop ms _ r (by simpa using hm) htab
      exact hprov.2.2 (isinOpt_some _ _ hf)

/-- Witness for C10: with no selections the row with the unparseable date
cell garbage stays in the output; with year selection 2023 the parseable
2023 row survives and its date is present. -/
theorem c10_witness :
    (renderFilterWidget dateParse [] [] []
        [⟨"garbage", (0 : Nat)⟩, ⟨"2023-01-15", 1⟩]).table =
      [deriveRow dateParse ⟨"garbage", 0⟩,
        deriveRow dateParse ⟨"2023-01-15", 1⟩] ∧
    (deriveRow dateParse (⟨"2023-01-15", 1⟩ : Row Nat)).date.isSome = true := by
  have h := c10_unparseable_dates dateParse
    [⟨"garbage", (0 : Nat)⟩, ⟨"2023-01-15", 1⟩] [2023] [] []
  refine ⟨h.1, ?_⟩
  exact h.2 (by simp) (deriveRow dateParse ⟨"2023-01-15", 1⟩) (by decide)
